import Mathlib

/-!
Verification of the redsprint-analytics event service.

The Go source is shallowly embedded: timestamps are unix seconds
(`Int`), `time.Time` values truncated to the minute are represented by
their minute index, and the per-application 30-minute circular event
cache (`apps/event-cache.go`), the tiered retrieval path
(`apps/manager.go`), the registry mutations (`apps/manager.go`,
`apps/handler.go`), the ingestion pipeline (`tracker.go`) and the query
request parsing are translated function by function.  External
collaborators (the HTTP transport, the UUID generator, the SHA-256
hash, the filesystem) enter as explicit parameters; everything the
claims speak about is modelled from the source.
-/

namespace Redsprint

/-- Unix seconds of Go's zero `time.Time` (January 1, year 1 UTC).
`Timestamp.IsZero()` holds exactly for this instant; in the embedding a
timestamp is a plain unix-seconds integer and the zero time is this
value. -/
def goZeroUnix : Int := -62135596800

/-- `toMinutesSinceEpoch` from event-cache.go: `t.Unix() / 60`.  Go's
`/` on integers truncates toward zero, which is `Int.div`. -/
def toMinutesSinceEpoch (t : Int) : Int := Int.tdiv t 60

/-- Minute index of `t.Truncate(time.Minute)`: Go's `Time.Truncate`
rounds down to the nearest minute boundary (a floor, `Int.fdiv`),
because the zero time is minute-aligned with the epoch. -/
def minuteFloor (t : Int) : Int := Int.fdiv t 60

/-- `CacheWindowMinutes` from event-cache.go. -/
def CacheWindowMinutes : Nat := 30

/-- `models.UserInfo`. -/
structure UserInfo where
  id : String := ""
  sessionID : String := ""
  anonymousID : String := ""
deriving DecidableEq, Repr

/-- `models.DeviceInfo`. -/
structure DeviceInfo where
  platform : String := ""
  osVersion : String := ""
  deviceModel : String := ""
  screenResolution : String := ""
  locale : String := ""
  timezone : String := ""
deriving DecidableEq, Repr

/-- `models.LocationInfo`. -/
structure LocationInfo where
  country : String := ""
  region : String := ""
  city : String := ""
  ip : String := ""
deriving DecidableEq, Repr

/-- `models.WebInfo`. -/
structure WebInfo where
  userAgent : String := ""
  referrer : String := ""
  utmSource : String := ""
  utmMedium : String := ""
  utmCampaign : String := ""
  pageURL : String := ""
  pageTitle : String := ""
deriving DecidableEq, Repr

/-- `models.Event`.  `ts` is the timestamp in unix seconds; Go's zero
time is `goZeroUnix`.  The open `properties` JSON map and the unused
`local_time`/`app_version` fields carry no semantics in any claim and
are omitted. -/
structure Event where
  eventID : String := ""
  ts : Int := goZeroUnix
  appID : String := ""
  eventType : String := ""
  eventName : String := ""
  user : UserInfo := {}
  device : DeviceInfo := {}
  location : Option LocationInfo := none
  web : Option WebInfo := none
deriving DecidableEq, Repr

/-- `apps.EventCache`: a fixed array of `CacheWindowMinutes` buckets, a
current index and the minute index of `lastMinute` (the instant is
always a whole minute, so its `toMinutesSinceEpoch` equals this
field). -/
structure EventCache where
  buckets : List (List Event)
  currentIndex : Nat
  lastMinute : Int
deriving DecidableEq, Repr

/-- Well-formedness maintained by every cache constructor and step:
exactly `CacheWindowMinutes` buckets and an index inside the ring. -/
def CacheWF (c : EventCache) : Prop :=
  c.buckets.length = CacheWindowMinutes ∧ c.currentIndex < CacheWindowMinutes

instance (c : EventCache) : Decidable (CacheWF c) := by
  unfold CacheWF; infer_instance

/-- `NewEventCache` (part_005): `lastMinute` is the current minute plus
one, `currentIndex` is 0, all buckets empty.  `nowMin` is the minute
index of `time.Now().UTC().Truncate(time.Minute)`. -/
def newEventCache (nowMin : Int) : EventCache :=
  { buckets := List.replicate CacheWindowMinutes []
    currentIndex := 0
    lastMinute := nowMin + 1 }

/-- The bucket holding minute `lastMinute - offset`: the ring index is
`(currentIndex - offset + CacheWindowMinutes) % CacheWindowMinutes` (Go
arithmetic on a non-negative operand, hence the `Nat` form). -/
def bucketAt (c : EventCache) (offset : Nat) : List Event :=
  c.buckets.getD ((c.currentIndex + CacheWindowMinutes - offset) % CacheWindowMinutes) []

/-- `EventCache.Add` (part_005): truncate the timestamp to the minute,
discard events before `oldestAllowed = lastMinute - CacheWindowMinutes`
or after `lastMinute`, otherwise append to the bucket at ring index
`(currentIndex - diffMinutes + CacheWindowMinutes) % CacheWindowMinutes`. -/
def addEvent (c : EventCache) (e : Event) : EventCache :=
  let eventTime := minuteFloor e.ts
  let oldestAllowed := c.lastMinute - (CacheWindowMinutes : Int)
  if eventTime < oldestAllowed then c
  else if c.lastMinute < eventTime then c
  else
    let diffMinutes : Nat := (c.lastMinute - eventTime).toNat
    let index := (c.currentIndex + CacheWindowMinutes - diffMinutes) % CacheWindowMinutes
    { c with buckets := c.buckets.set index (c.buckets.getD index [] ++ [e]) }

/-- One iteration of the loop body inside `advance`'s catch-up: step the
index, clear the bucket now pointed to, increment `lastMinute`. -/
def advanceStep (c : EventCache) : EventCache :=
  let idx := (c.currentIndex + 1) % CacheWindowMinutes
  { buckets := c.buckets.set idx []
    currentIndex := idx
    lastMinute := c.lastMinute + 1 }

/-- `k` iterations of the advance loop body. -/
def advanceSteps (c : EventCache) : Nat → EventCache
  | 0 => c
  | k + 1 => advanceSteps (advanceStep c) k

/-- The catch-up of `advance` (part_005): while `lastMinute < now + 1`,
perform one step; each step raises `lastMinute` by one minute, so the
loop runs `(nowMin + 1 - lastMinute)` times when positive. -/
def catchUp (c : EventCache) (nowMin : Int) : EventCache :=
  advanceSteps c (nowMin + 1 - c.lastMinute).toNat

/-- `EventCache.GetEventsSince` (part_005): visit offsets `0 ..
CacheWindowMinutes - 1` (newest minute first); skip a bucket whose
minute is below `startMinutes`, otherwise keep the events whose
`toMinutesSinceEpoch` is at least `startMinutes`, in bucket order.  The
Go code starts from `make([]models.Event, 0)` so the empty result is an
empty, never absent, slice; the embedding returns the list itself. -/
def getEventsSince (c : EventCache) (startMinutes : Int) : List Event :=
  (List.range CacheWindowMinutes).flatMap (fun i =>
    let bucketIndex := (c.currentIndex + CacheWindowMinutes - i) % CacheWindowMinutes
    let bucketMinutes : Int := c.lastMinute - (i : Int)
    if bucketMinutes < startMinutes then []
    else (c.buckets.getD bucketIndex []).filter
      (fun e => startMinutes ≤ toMinutesSinceEpoch e.ts))

/-- All cached events in the order `GetEventsSince` visits buckets:
newest minute first, insertion order inside a bucket. -/
def allEventsNewestFirst (c : EventCache) : List Event :=
  (List.range CacheWindowMinutes).flatMap (fun i => bucketAt c i)

/-- Cache states reachable from a fresh cache by admissions and advance
steps. -/
inductive Reachable : EventCache → Prop where
  | init (nowMin : Int) : Reachable (newEventCache nowMin)
  | add {c : EventCache} (e : Event) : Reachable c → Reachable (addEvent c e)
  | advance {c : EventCache} : Reachable c → Reachable (advanceStep c)

/-- A minimal event at minute `m` since the epoch, used for concrete
instances in witnesses and counterexamples. -/
def mkEv (id : String) (m : Int) : Event :=
  { eventID := id, ts := m * 60 }

/-- Claim C3's bucket-to-minute mapping as the spec states it: every
event in the bucket at offset `i` has minute `lastMinute - i`. -/
def bucketMappingStrict (c : EventCache) : Prop :=
  ∀ i : Nat, i < CacheWindowMinutes → ∀ e ∈ bucketAt c i,
    minuteFloor e.ts = c.lastMinute - (i : Int)

instance (c : EventCache) : Decidable (bucketMappingStrict c) := by
  unfold bucketMappingStrict; infer_instance

/-- The mapping the code actually maintains: an event admitted exactly
at the `oldestAllowed = lastMinute - W` boundary has `diff = W`, and
`(currentIndex - W + W) % W = currentIndex` puts it in the bucket at
offset 0; afterwards it trails the ring at `bucket minute - W`. -/
def bucketMapping (c : EventCache) : Prop :=
  ∀ i : Nat, i < CacheWindowMinutes → ∀ e ∈ bucketAt c i,
    minuteFloor e.ts = c.lastMinute - (i : Int) ∨
    minuteFloor e.ts = c.lastMinute - (i : Int) - (CacheWindowMinutes : Int)

instance (c : EventCache) : Decidable (bucketMapping c) := by
  unfold bucketMapping; infer_instance

/-- Sound bucket bound used by the query theorem: every cached event's
`toMinutesSinceEpoch` is at most its bucket's minute.  Reachable states
whose events carry post-epoch timestamps satisfy it (see
`reachable_bucketMinuteBound`). -/
def bucketMinuteBound (c : EventCache) : Prop :=
  ∀ i : Nat, i < CacheWindowMinutes → ∀ e ∈ bucketAt c i,
    toMinutesSinceEpoch e.ts ≤ c.lastMinute - (i : Int)

instance (c : EventCache) : Decidable (bucketMinuteBound c) := by
  unfold bucketMinuteBound; infer_instance

/-- Lookup in a Go map modelled as an association list. -/
def assocFind {α : Type} (l : List (String × α)) (k : String) : Option α :=
  (l.find? (fun p => p.fst == k)).map Prod.snd

/-- Go map assignment `m[k] = v`. -/
def assocSet {α : Type} : List (String × α) → String → α → List (String × α)
  | [], k, v => [(k, v)]
  | (k0, v0) :: rest, k, v =>
    if k0 == k then (k0, v) :: rest else (k0, v0) :: assocSet rest k v

/-- Go map removal `delete(m, k)`. -/
def assocRemove {α : Type} (l : List (String × α)) (k : String) : List (String × α) :=
  l.filter (fun p => p.fst != k)

/-- `Manager.AddEvent` (manager.go): create the per-app cache on first
event (`NewEventCache`, wall-clock minute `nowMin`), then `Add`. -/
def addEventMgr (caches : List (String × EventCache)) (nowMin : Int) (e : Event) :
    List (String × EventCache) :=
  let c := match assocFind caches e.appID with
    | some c => c
    | none => newEventCache nowMin
  assocSet caches e.appID (addEvent c e)

/-- `Manager.getEventsFromCache` (manager.go): `none` is a cache miss
(no cache for the app, `startMinutes` below `cacheWindowStart =
cacheLast - (W - 1)`, or above `cacheLast`); otherwise the cache serves
the query.  `cacheLast` is `toMinutesSinceEpoch(lastMinute)`, which is
the `lastMinute` field of the embedding. -/
def getEventsFromCache (caches : List (String × EventCache)) (appID : String)
    (startMinutes : Int) : Option (List Event) :=
  match assocFind caches appID with
  | none => none
  | some cache =>
    let cacheLastMinutes := cache.lastMinute
    let cacheWindowStart := cacheLastMinutes - ((CacheWindowMinutes : Int) - 1)
    if startMinutes < cacheWindowStart then none
    else if cacheLastMinutes < startMinutes then none
    else some (getEventsSince cache startMinutes)

/-- One file inside a day directory of the store; `content = none`
models a file that fails to read or decode (malformed JSON). -/
structure FileEntry where
  name : String
  content : Option Event
deriving DecidableEq, Repr

/-- A day directory `data/<app-id>/<YYYYMMDD>/`; `none` means the
directory does not exist. -/
abbrev DayDir := Option (List FileEntry)

/-- The file loop of `Manager.getEventsFromDay`: skip entries without a
`.json` suffix, skip files that fail to read or decode, keep events
whose minute is at least `startMinutes`, in directory order. -/
def collectDay (startMinutes : Int) : List FileEntry → List Event
  | [] => []
  | f :: fs =>
    if f.name.endsWith ".json" then
      match f.content with
      | none => collectDay startMinutes fs
      | some e =>
        if startMinutes ≤ toMinutesSinceEpoch e.ts then e :: collectDay startMinutes fs
        else collectDay startMinutes fs
    else collectDay startMinutes fs

/-- `Manager.getEventsFromDay` (manager.go): a missing directory
yields an empty result, a directory with more than 10000 entries fails
the call, otherwise the surviving events are returned. -/
def getEventsFromDay (dir : DayDir) (startMinutes : Int) : Except String (List Event) :=
  match dir with
  | none => .ok []
  | some files =>
    if 10000 < files.length then .error "too many files, please narrow time range"
    else .ok (collectDay startMinutes files)

/-- The date loop of `Manager.getEventsFromDisk`: scan the day
directories from the start date up to today in order, propagating the
first error. -/
def getEventsFromDisk : List DayDir → Int → Except String (List Event)
  | [], _ => .ok []
  | d :: ds, startMinutes =>
    match getEventsFromDay d startMinutes with
    | .error s => .error s
    | .ok es =>
      match getEventsFromDisk ds startMinutes with
      | .error s => .error s
      | .ok rest => .ok (es ++ rest)

/-- `Manager.getEvents` (manager.go): try the cache first, fall back to
the disk scan on a miss.  `days` are the day directories the disk scan
would enumerate for this app and start minute. -/
def getEvents (caches : List (String × EventCache)) (days : List DayDir)
    (appID : String) (startMinutes : Int) : Except String (List Event) :=
  match getEventsFromCache caches appID startMinutes with
  | some es => .ok es
  | none => getEventsFromDisk days startMinutes

/-- `MaxTimestampDrift` (tracker.go), in seconds. -/
def MaxTimestampDriftSeconds : Int := 300

/-- `EventTracker.enrichEvent` (tracker.go).  `genId` is the UUIDv7 the
generator would produce, `clientIP` the address `extractClientIP`
derives from the request, `userAgent`/`referer` the request headers;
`serverNow` is `time.Now().UTC()` in unix seconds. -/
def enrichEvent (genId clientIP userAgent referer : String) (serverNow : Int)
    (e : Event) (appID : String) : Event :=
  let e1 := { e with appID := appID }
  let e2 := if e1.eventID = "" then { e1 with eventID := genId } else e1
  let e3 :=
    if e2.ts = goZeroUnix then { e2 with ts := serverNow }
    else if MaxTimestampDriftSeconds < e2.ts - serverNow then { e2 with ts := serverNow }
    else if e2.ts - serverNow < -MaxTimestampDriftSeconds then { e2 with ts := serverNow }
    else e2
  let e4 :=
    match e3.location with
    | none => { e3 with location := some { ip := clientIP } }
    | some _ => e3
  if e4.device.platform = "web" then
    match e4.web with
    | some w =>
      let w1 := if w.userAgent = "" then { w with userAgent := userAgent } else w
      let w2 := if w1.referrer = "" then { w1 with referrer := referer } else w1
      { e4 with web := some w2 }
    | none => e4
  else e4

/-- The core of `EventTracker.PostHandler` (tracker.go) after
authentication and body decoding: enrich, admit to the per-app cache
(`Manager.AddEvent`), then attempt the durable write (`saveEvent`,
abstracted by `saveOk`); answer 500 on write failure, else 200 with the
event id.  The returned cache map is the post-handler state. -/
def postTrack (genId clientIP userAgent referer : String) (serverNow : Int)
    (caches : List (String × EventCache)) (e : Event) (appID : String)
    (saveOk : Bool) : Nat × Option String × List (String × EventCache) :=
  let ev := enrichEvent genId clientIP userAgent referer serverNow e appID
  let caches2 := addEventMgr caches (minuteFloor serverNow) ev
  if saveOk then (200, some ev.eventID, caches2) else (500, none, caches2)

/-- `apps.App` (the registry record).  `allowedOrigins` is the field
handler.go and main.go read; the copy of manager.go in the tree
predates it and leaves it untouched in `CreateApp`. -/
structure App where
  id : String
  name : String
  apiKey : String
  createdAt : Int
  allowedOrigins : List String := []
deriving DecidableEq, Repr

/-- `apps.Data`: the whole persisted registry document. -/
structure RegistryData where
  apps : List (String × App)
deriving DecidableEq, Repr

/-- `Manager.CreateApp` (manager.go): compute the id (first 8 hex
characters of SHA-256 of the name, performed by the crypto collaborator
and passed in as `id`), reject a duplicate, generate the API key
(`apiKeyResult`, `none` when `GenerateUUIDv7` fails), insert, save the
whole document, and on save failure delete the entry again (rollback).
The pair returned is the handler result and the registry state after
the call. -/
def createApp (d : RegistryData) (name id : String) (apiKeyResult : Option String)
    (createdAt : Int) (saveOk : Bool) : Except String App × RegistryData :=
  if (assocFind d.apps id).isSome then (.error "app already exists", d)
  else
    match apiKeyResult with
    | none => (.error "unable to create API key", d)
    | some apiKey =>
      let app : App :=
        { id := id, name := name, apiKey := apiKey, createdAt := createdAt }
      let d2 : RegistryData := { apps := assocSet d.apps id app }
      if saveOk then (.ok app, d2)
      else (.error "save app", { apps := assocRemove d2.apps id })

/-- The mutation core of `UpdateAppHandler` (handler.go) after body
decoding: reject an empty name (400) or an unknown id (404), overwrite
the record's name and allowed origins, save the whole document; on save
failure answer 500 — the code has no rollback, so the mutated registry
is kept either way. -/
def updateApp (d : RegistryData) (appID name : String) (origins : List String)
    (saveOk : Bool) : Nat × RegistryData :=
  if name = "" then (400, d)
  else
    match assocFind d.apps appID with
    | none => (404, d)
    | some app =>
      let app2 := { app with name := name, allowedOrigins := origins }
      let d2 : RegistryData := { apps := assocSet d.apps appID app2 }
      if saveOk then (200, d2) else (500, d2)

/-- The mutation core of `DeleteAppHandler` (handler.go): unknown id is
404; otherwise the registry entry and the per-app cache are deleted
before the save, and on save failure the handler answers 500 without
restoring either. -/
def deleteApp (d : RegistryData) (caches : List (String × EventCache))
    (appID : String) (saveOk : Bool) :
    Nat × RegistryData × List (String × EventCache) :=
  match assocFind d.apps appID with
  | none => (404, d, caches)
  | some _ =>
    let d2 : RegistryData := { apps := assocRemove d.apps appID }
    let caches2 := assocRemove caches appID
    if saveOk then (204, d2, caches2) else (500, d2, caches2)

/-- Outcome of `Manager.load` at startup. -/
inductive LoadResult where
  | notExist
  | loadFailed
  | loaded (d : RegistryData)

/-- In-memory state of `apps.Manager`. -/
structure ManagerState where
  data : RegistryData
  caches : List (String × EventCache)
deriving DecidableEq, Repr

/-- `NewManager` (manager.go): start from an empty registry and an
empty cache map, load the metadata file; if the file is missing, save a
fresh empty one (failing startup when that save fails); any other load
error fails startup. -/
def newManager (load : LoadResult) (saveOk : Bool) : Except String ManagerState :=
  match load with
  | .loaded d => .ok { data := d, caches := [] }
  | .notExist =>
    if saveOk then .ok { data := { apps := [] }, caches := [] }
    else .error "create new config file"
  | .loadFailed => .error "load apps metadata"

set_option linter.unusedVariables false in
/-- `main` (main.go) up to serving: `NewManager`, the CORS wrapper, the
event tracker and the route registrations.  None of these reads the
event store or touches a cache, so startup is `newManager` and the
`store` (every app's day directories) is never consulted. -/
def mainStartup (load : LoadResult) (saveOk : Bool)
    (store : List (String × List DayDir)) : Except String ManagerState :=
  newManager load saveOk

/-- The route base of the events query endpoint (manager.go). -/
def routeBase : String := "/analytics/api/v1/apps/"

/-- `extractAppID` (manager.go): require the route base as a leading
path segment, take what remains up to the next slash. -/
def extractAppID (path : String) : Except String String :=
  if routeBase.data.isPrefixOf path.data then
    let rest := path.data.drop routeBase.data.length
    if rest.isEmpty then .error "missing app ID"
    else
      let appID := rest.takeWhile (fun c => c != '/')
      if appID.isEmpty then .error "empty app ID" else .ok (String.mk appID)
  else .error "invalid path"

/-- Decimal digits to a number; `none` on the empty string or any
non-digit, mirroring the digit loop of `strconv.ParseInt`. -/
def decVal? (cs : List Char) : Option Nat :=
  if cs.isEmpty then none
  else
    cs.foldl
      (fun acc c =>
        match acc with
        | none => none
        | some n => if c.isDigit then some (n * 10 + (c.toNat - 48)) else none)
      (some 0)

/-- `strconv.ParseInt(s, 10, 64)` up to the int64 range check (which no
claim touches): an optional sign followed by decimal digits. -/
def goParseInt (s : String) : Option Int :=
  match s.data with
  | [] => none
  | c :: rest =>
    if c = '-' then (decVal? rest).map (fun n => -(n : Int))
    else if c = '+' then (decVal? rest).map (fun n => (n : Int))
    else (decVal? (c :: rest)).map (fun n => (n : Int))

/-- `Manager.parseRequest` (manager.go): extract the app id from the
path; the start minute defaults to `toMinutesSinceEpoch(now) -
CacheWindowMinutes` and a non-empty `start-minutes-since-epoch` query
parameter must parse as an integer.  `startParam` is what
`r.URL.Query().Get` returns — the empty string both when the parameter
is absent and when it is present but empty. -/
def parseRequest (nowMin : Int) (path : String) (startParam : String) :
    Except String (String × Int) :=
  match extractAppID path with
  | .error _ => .error "invalid app ID"
  | .ok appID =>
    if startParam = "" then .ok (appID, nowMin - (CacheWindowMinutes : Int))
    else
      match goParseInt startParam with
      | none => .error "invalid start-minutes-since-epoch format"
      | some v => .ok (appID, v)

theorem minuteFloor_mkEv (id : String) (m : Int) : minuteFloor (mkEv id m).ts = m := by
  simp [minuteFloor, mkEv, Int.mul_fdiv_cancel _ (by norm_num : (60 : Int) ≠ 0),
    mul_comm]

/-- C2: `Add` discards an event whose truncated minute lies outside
`[lastMinute - W, lastMinute]` (every bucket unchanged); otherwise
`diff = lastMinute - e_min` lies in `[0, W]` and the event is appended
to the bucket at ring index `(currentIndex - diff + W) mod W`.  The
last conjunct is the "in particular": on a fresh cache tracking server
minute `nowMin` (so `lastMinute = nowMin + 1`), an event more than one
minute ahead of the server clock is discarded, not remapped to the
current bucket. -/
theorem C2_add_semantics (c : EventCache) (e : Event) :
    (minuteFloor e.ts < c.lastMinute - (CacheWindowMinutes : Int) ∨
        c.lastMinute < minuteFloor e.ts →
      addEvent c e = c) ∧
    (c.lastMinute - (CacheWindowMinutes : Int) ≤ minuteFloor e.ts →
      minuteFloor e.ts ≤ c.lastMinute →
      0 ≤ c.lastMinute - minuteFloor e.ts ∧
      c.lastMinute - minuteFloor e.ts ≤ (CacheWindowMinutes : Int) ∧
      ∃ index : Nat,
        (index : Int) =
          ((c.currentIndex : Int) - (c.lastMinute - minuteFloor e.ts) +
              (CacheWindowMinutes : Int)) % (CacheWindowMinutes : Int) ∧
        addEvent c e =
          { c with buckets :=
              c.buckets.set index (c.buckets.getD index [] ++ [e]) }) ∧
    (∀ nowMin : Int, nowMin + 1 < minuteFloor e.ts →
      addEvent (newEventCache nowMin) e = newEventCache nowMin) := by
  refine ⟨?_, ?_, ?_⟩
  · intro h
    unfold addEvent
    rcases h with h | h
    · simp [h]
    · simp only
      rw [if_neg (by omega), if_pos h]
  · intro hlo hhi
    refine ⟨by omega, by omega, ?_⟩
    refine ⟨(c.currentIndex + CacheWindowMinutes -
      (c.lastMinute - minuteFloor e.ts).toNat) % CacheWindowMinutes, ?_, ?_⟩
    · have h0 : ((c.lastMinute - minuteFloor e.ts).toNat : Int) =
          c.lastMinute - minuteFloor e.ts := Int.toNat_of_nonneg (by omega)
      have hle : (c.lastMinute - minuteFloor e.ts).toNat ≤ CacheWindowMinutes := by
        omega
      unfold CacheWindowMinutes at *
      omega
    · unfold addEvent
      rw [if_neg (by omega), if_neg (by omega)]
  · intro nowMin h
    unfold addEvent newEventCache
    simp only
    rw [if_neg, if_pos]
    · exact h
    · simp only [CacheWindowMinutes]
      omega

/-- Closed instance of `C2_add_semantics`: on a cache with `lastMinute`
minute 1000000 and index 0, an event at minute 999969 is discarded and
an event at minute 999995 is appended at ring index 25. -/
theorem C2_add_semantics_witness :
    addEvent (newEventCache 999999) (mkEv "old" 999969) = newEventCache 999999 ∧
    (0 ≤ (newEventCache 999999).lastMinute - minuteFloor (mkEv "in" 999995).ts ∧
      (newEventCache 999999).lastMinute - minuteFloor (mkEv "in" 999995).ts ≤
        (CacheWindowMinutes : Int) ∧
      ∃ index : Nat,
        (index : Int) =
          (((newEventCache 999999).currentIndex : Int) -
              ((newEventCache 999999).lastMinute - minuteFloor (mkEv "in" 999995).ts) +
              (CacheWindowMinutes : Int)) % (CacheWindowMinutes : Int) ∧
        addEvent (newEventCache 999999) (mkEv "in" 999995) =
          { newEventCache 999999 with
            buckets := ((newEventCache 999999).buckets.set index
              ((newEventCache 999999).buckets.getD index [] ++ [mkEv "in" 999995])) }) :=
  ⟨(C2_add_semantics (newEventCache 999999) (mkEv "old" 999969)).1
      (Or.inl (by rw [minuteFloor_mkEv]; decide)),
    (C2_add_semantics (newEventCache 999999) (mkEv "in" 999995)).2.1
      (by rw [minuteFloor_mkEv]; decide) (by rw [minuteFloor_mkEv]; decide)⟩

theorem cacheWF_new (nowMin : Int) : CacheWF (newEventCache nowMin) := by
  constructor <;> simp [newEventCache, CacheWindowMinutes]

theorem addEvent_lastMinute (c : EventCache) (e : Event) :
    (addEvent c e).lastMinute = c.lastMinute := by
  simp only [addEvent]
  split
  · rfl
  · split <;> rfl

theorem addEvent_currentIndex (c : EventCache) (e : Event) :
    (addEvent c e).currentIndex = c.currentIndex := by
  simp only [addEvent]
  split
  · rfl
  · split <;> rfl

theorem cacheWF_addEvent (c : EventCache) (e : Event) (h : CacheWF c) :
    CacheWF (addEvent c e) := by
  simp only [CacheWF, addEvent]
  split
  · exact h
  · split
    · exact h
    · exact ⟨by simpa using h.1, h.2⟩

theorem cacheWF_advanceStep (c : EventCache) (h : CacheWF c) :
    CacheWF (advanceStep c) := by
  refine ⟨by simpa [advanceStep] using h.1, ?_⟩
  simp only [advanceStep]
  exact Nat.mod_lt _ (by unfold CacheWindowMinutes; omega)

theorem bucketAt_new (nowMin : Int) (i : Nat) :
    bucketAt (newEventCache nowMin) i = [] := by
  simp only [bucketAt, newEventCache, List.getD_eq_getElem?_getD,
    List.getElem?_replicate]
  split <;> rfl

theorem bucketMapping_new (nowMin : Int) : bucketMapping (newEventCache nowMin) := by
  intro i hi x hx
  rw [bucketAt_new] at hx
  simp at hx

theorem bucketMapping_addEvent (c : EventCache) (e : Event)
    (hwf : CacheWF c) (hm : bucketMapping c) : bucketMapping (addEvent c e) := by
  have hlen := hwf.1
  have hci := hwf.2
  intro i hi x hx
  rw [addEvent_lastMinute]
  simp only [addEvent] at hx
  split at hx
  · exact hm i hi x hx
  · split at hx
    · exact hm i hi x hx
    · rename_i h1 h2
      simp only [bucketAt] at hx
      have hd : ((c.lastMinute - minuteFloor e.ts).toNat : Int) =
          c.lastMinute - minuteFloor e.ts := Int.toNat_of_nonneg (by omega)
      have hd30 : (c.lastMinute - minuteFloor e.ts).toNat ≤ CacheWindowMinutes := by
        unfold CacheWindowMinutes at *
        omega
      by_cases hij : (c.currentIndex + CacheWindowMinutes - i) % CacheWindowMinutes =
          (c.currentIndex + CacheWindowMinutes -
            (c.lastMinute - minuteFloor e.ts).toNat) % CacheWindowMinutes
      · rw [hij, List.getD_eq_getElem?_getD,
          List.getElem?_set_eq_of_lt _
            (by rw [hlen]; exact Nat.mod_lt _ (by unfold CacheWindowMinutes; omega)),
          Option.getD_some] at hx
        rcases List.mem_append.1 hx with hold | hnew
        · have hmem : x ∈ bucketAt c i := by
            simp only [bucketAt]
            rw [hij, List.getD_eq_getElem?_getD]
            simpa [List.getD_eq_getElem?_getD] using hold
          exact hm i hi x hmem
        · have hxe : x = e := by simpa using hnew
          subst hxe
          unfold CacheWindowMinutes at *
          omega
      · rw [List.getD_eq_getElem?_getD, List.getElem?_set_ne (Ne.symm hij)] at hx
        have hmem : x ∈ bucketAt c i := by
          simp only [bucketAt, List.getD_eq_getElem?_getD]
          exact hx
        exact hm i hi x hmem

theorem bucketMapping_advanceStep (c : EventCache)
    (hwf : CacheWF c) (hm : bucketMapping c) : bucketMapping (advanceStep c) := by
  have hlen := hwf.1
  have hci := hwf.2
  intro i hi x hx
  simp only [advanceStep, bucketAt] at hx ⊢
  by_cases hi0 : i = 0
  · subst hi0
    have hidx : ((c.currentIndex + 1) % CacheWindowMinutes + CacheWindowMinutes - 0) %
        CacheWindowMinutes = (c.currentIndex + 1) % CacheWindowMinutes := by
      unfold CacheWindowMinutes at *
      omega
    rw [hidx, List.getD_eq_getElem?_getD,
      List.getElem?_set_eq_of_lt _
        (by rw [hlen]; exact Nat.mod_lt _ (by unfold CacheWindowMinutes; omega)),
      Option.getD_some] at hx
    simp at hx
  · have hne : ((c.currentIndex + 1) % CacheWindowMinutes + CacheWindowMinutes - i) %
        CacheWindowMinutes ≠ (c.currentIndex + 1) % CacheWindowMinutes := by
      unfold CacheWindowMinutes at *
      omega
    have hidx : ((c.currentIndex + 1) % CacheWindowMinutes + CacheWindowMinutes - i) %
        CacheWindowMinutes =
        (c.currentIndex + CacheWindowMinutes - (i - 1)) % CacheWindowMinutes := by
      unfold CacheWindowMinutes at *
      omega
    rw [List.getD_eq_getElem?_getD, List.getElem?_set_ne (Ne.symm hne), hidx] at hx
    have hmem : x ∈ bucketAt c (i - 1) := by
      simp only [bucketAt, List.getD_eq_getElem?_getD]
      exact hx
    have hprev := hm (i - 1) (by omega) x hmem
    rcases hprev with h | h <;> unfold CacheWindowMinutes at * <;> omega

theorem reachable_invariant (c : EventCache) (h : Reachable c) :
    CacheWF c ∧ bucketMapping c := by
  induction h with
  | init nowMin => exact ⟨cacheWF_new nowMin, bucketMapping_new nowMin⟩
  | add e _ ih => exact ⟨cacheWF_addEvent _ e ih.1, bucketMapping_addEvent _ e ih.1 ih.2⟩
  | advance _ ih => exact ⟨cacheWF_advanceStep _ ih.1, bucketMapping_advanceStep _ ih.1 ih.2⟩

/-- C3 (amended): in every reachable cache state, every event in the
bucket at offset `i` has minute `lastMinute - i` or, for events that
were admitted exactly at the `oldest_allowed = lastMinute - W`
boundary, `lastMinute - i - W`; the strict mapping claimed by the spec
holds for all admissions except the boundary one, which aliases the
bucket at offset 0. -/
theorem C3_bucket_mapping (c : EventCache) (h : Reachable c) :
    CacheWF c ∧ bucketMapping c :=
  reachable_invariant c h

/-- Closed instance of `C3_bucket_mapping` on the reachable state that
holds one ordinary admission. -/
theorem C3_bucket_mapping_witness :
    Reachable (addEvent (newEventCache 999999) (mkEv "w" 999995)) ∧
    (CacheWF (addEvent (newEventCache 999999) (mkEv "w" 999995)) ∧
      bucketMapping (addEvent (newEventCache 999999) (mkEv "w" 999995))) :=
  ⟨Reachable.add _ (Reachable.init 999999),
    C3_bucket_mapping _ (Reachable.add _ (Reachable.init 999999))⟩

/-- C3 counterexample: the reachable state obtained by admitting, into
a fresh cache with `lastMinute` minute 1000000, an event exactly at the
`oldest_allowed = lastMinute - W` boundary (minute 999970).  `Add`
computes `diff = 30` and stores it at ring index `(0 - 30 + 30) % 30 =
0`, the bucket at offset 0, whose minute is 1000000, not 999970 — so
the claimed mapping, which includes boundary admissions, is false. -/
theorem C3_counterexample :
    Reachable (addEvent (newEventCache 999999) (mkEv "b" 999970)) ∧
    ¬ bucketMappingStrict (addEvent (newEventCache 999999) (mkEv "b" 999970)) :=
  ⟨Reachable.add _ (Reachable.init 999999), by decide⟩

theorem tdiv_eq_fdiv_of_nonneg (t : Int) (h : 0 ≤ t) :
    Int.tdiv t 60 = Int.fdiv t 60 := by
  rcases Int.eq_ofNat_of_zero_le h with ⟨n, rfl⟩
  cases n with
  | zero => rfl
  | succ m => rfl

/-- In a reachable state whose cached events all carry post-epoch
timestamps, every event's `toMinutesSinceEpoch` is bounded by its
bucket's minute (Go's `Unix()/60` truncates toward zero, which agrees
with the floor used by `Truncate` on non-negative timestamps). -/
theorem reachable_bucketMinuteBound (c : EventCache) (h : Reachable c)
    (hts : ∀ i : Nat, i < CacheWindowMinutes → ∀ e ∈ bucketAt c i, 0 ≤ e.ts) :
    bucketMinuteBound c := by
  intro i hi e he
  have hmap := (reachable_invariant c h).2 i hi e he
  have heq : toMinutesSinceEpoch e.ts = minuteFloor e.ts :=
    tdiv_eq_fdiv_of_nonneg e.ts (hts i hi e he)
  rw [heq]
  rcases hmap with hm | hm <;> omega

theorem filter_flatMap_comm (l : List Nat) (f : Nat → List Event) (p : Event → Bool) :
    (l.flatMap f).filter p = l.flatMap (fun i => (f i).filter p) := by
  induction l with
  | nil => rfl
  | cons a t ih => simp [List.flatMap_cons, List.filter_append, ih]

theorem flatMap_congr_mem (l : List Nat) (f g : Nat → List Event)
    (h : ∀ i ∈ l, f i = g i) : l.flatMap f = l.flatMap g := by
  induction l with
  | nil => rfl
  | cons a t ih =>
    rw [List.flatMap_cons, List.flatMap_cons, h a (by simp),
      ih (fun i hi => h i (by simp [hi]))]

/-- C4: when every cached event's minute is bounded by its bucket's
minute (which holds in reachable states, `reachable_bucketMinuteBound`),
`GetEventsSince M` returns exactly the cached events whose
minutes-since-epoch is at least `M`, scanning buckets newest minute to
oldest with insertion order preserved inside each bucket — the filter
of `allEventsNewestFirst`.  The Go function accumulates into
`make([]models.Event, 0)`, so the no-match result is an empty, never
absent, slice (the `[]` of the embedding). -/
theorem C4_get_events_since (c : EventCache) (M : Int) (h : bucketMinuteBound c) :
    getEventsSince c M =
      (allEventsNewestFirst c).filter (fun e => M ≤ toMinutesSinceEpoch e.ts) := by
  unfold getEventsSince allEventsNewestFirst
  rw [filter_flatMap_comm]
  apply flatMap_congr_mem
  intro i hi
  rw [List.mem_range] at hi
  dsimp only
  by_cases hb : c.lastMinute - (i : Int) < M
  · rw [if_pos hb]
    symm
    rw [List.filter_eq_nil_iff]
    intro e he
    have hle := h i hi e he
    simp only [decide_eq_true_eq]
    omega
  · rw [if_neg hb]
    rfl

/-- Closed instance of `C4_get_events_since` on a cache holding two
admitted events, queried from minute 999996. -/
theorem C4_get_events_since_witness :
    bucketMinuteBound
      (addEvent (addEvent (newEventCache 999999) (mkEv "x" 999995)) (mkEv "y" 1000000)) ∧
    getEventsSince
        (addEvent (addEvent (newEventCache 999999) (mkEv "x" 999995)) (mkEv "y" 1000000))
        999996 =
      (allEventsNewestFirst
          (addEvent (addEvent (newEventCache 999999) (mkEv "x" 999995)) (mkEv "y" 1000000))).filter
        (fun e => 999996 ≤ toMinutesSinceEpoch e.ts) :=
  ⟨by decide,
    C4_get_events_since
      (addEvent (addEvent (newEventCache 999999) (mkEv "x" 999995)) (mkEv "y" 1000000))
      999996 (by decide)⟩

theorem getEventsFromCache_none (caches : List (String × EventCache)) (appID : String)
    (M : Int) (h : assocFind caches appID = none) :
    getEventsFromCache caches appID M = none := by
  unfold getEventsFromCache
  rw [h]

theorem getEventsFromCache_some (caches : List (String × EventCache)) (appID : String)
    (M : Int) (c : EventCache) (h : assocFind caches appID = some c) :
    getEventsFromCache caches appID M =
      if c.lastMinute - ((CacheWindowMinutes : Int) - 1) ≤ M ∧ M ≤ c.lastMinute
      then some (getEventsSince c M) else none := by
  unfold getEventsFromCache
  rw [h]
  dsimp only
  by_cases h1 : M < c.lastMinute - ((CacheWindowMinutes : Int) - 1)
  · rw [if_pos h1, if_neg (by omega)]
  · rw [if_neg h1]
    by_cases h2 : c.lastMinute < M
    · rw [if_pos h2, if_neg (by omega)]
    · rw [if_neg h2, if_pos (by omega)]

/-- C5: the query is served from the cache exactly when a cache exists
for the app and `cache_last - (W - 1) ≤ M ≤ cache_last` (with
`cache_last = toMinutesSinceEpoch(lastMinute)`, the `lastMinute` field
here); with no cache, `M` below the window, or `M` above `cache_last`,
the on-disk store is scanned instead. -/
theorem C5_tiered_dispatch (caches : List (String × EventCache)) (days : List DayDir)
    (appID : String) (M : Int) :
    (∀ c, assocFind caches appID = some c →
      c.lastMinute - ((CacheWindowMinutes : Int) - 1) ≤ M → M ≤ c.lastMinute →
      getEvents caches days appID M = .ok (getEventsSince c M)) ∧
    (assocFind caches appID = none →
      getEvents caches days appID M = getEventsFromDisk days M) ∧
    (∀ c, assocFind caches appID = some c →
      (M < c.lastMinute - ((CacheWindowMinutes : Int) - 1) ∨ c.lastMinute < M) →
      getEvents caches days appID M = getEventsFromDisk days M) := by
  refine ⟨?_, ?_, ?_⟩
  · intro c hc h1 h2
    unfold getEvents
    rw [getEventsFromCache_some caches appID M c hc, if_pos ⟨h1, h2⟩]
  · intro hc
    unfold getEvents
    rw [getEventsFromCache_none caches appID M hc]
  · intro c hc hor
    unfold getEvents
    rw [getEventsFromCache_some caches appID M c hc, if_neg (by omega)]

/-- Closed instances of `C5_tiered_dispatch`: a hit at `M` inside the
window, the no-cache fallback, and the below-window fallback. -/
theorem C5_tiered_dispatch_witness :
    getEvents [("a", newEventCache 999999)] [] "a" 999980 =
      .ok (getEventsSince (newEventCache 999999) 999980) ∧
    getEvents [] [some []] "a" 999980 = getEventsFromDisk [some []] 999980 ∧
    getEvents [("a", newEventCache 999999)] [none] "a" 5 =
      getEventsFromDisk [none] 5 :=
  ⟨(C5_tiered_dispatch [("a", newEventCache 999999)] [] "a" 999980).1
      (newEventCache 999999) rfl (by decide) (by decide),
    (C5_tiered_dispatch [] [some []] "a" 999980).2.1 rfl,
    (C5_tiered_dispatch [("a", newEventCache 999999)] [none] "a" 5).2.2
      (newEventCache 999999) rfl (Or.inl (by decide))⟩

theorem collectDay_filter_isSome (M : Int) (files : List FileEntry) :
    collectDay M (files.filter (fun f => f.content.isSome)) = collectDay M files := by
  induction files with
  | nil => rfl
  | cons f fs ih =>
    by_cases hjson : f.name.endsWith ".json" <;>
      cases hc : f.content <;>
        simp [List.filter_cons, collectDay, hjson, hc, ih]

theorem getEventsFromDay_over (files : List FileEntry) (M : Int)
    (h : 10000 < files.length) :
    getEventsFromDay (some files) M =
      .error "too many files, please narrow time range" := by
  unfold getEventsFromDay
  dsimp only
  rw [if_pos h]

theorem getEventsFromDay_error_eq (d : DayDir) (M : Int) (s : String)
    (h : getEventsFromDay d M = .error s) :
    s = "too many files, please narrow time range" := by
  cases d with
  | none => simp [getEventsFromDay] at h
  | some files =>
    unfold getEventsFromDay at h
    dsimp only at h
    split at h
    · injection h with h
      exact h.symm
    · simp at h

theorem getEventsFromDisk_error_of_mem (days : List DayDir) (files : List FileEntry)
    (M : Int) (hmem : some files ∈ days) (hlen : 10000 < files.length) :
    getEventsFromDisk days M = .error "too many files, please narrow time range" := by
  induction days with
  | nil => simp at hmem
  | cons d0 ds ih =>
    rcases List.mem_cons.1 hmem with h0 | h0
    · unfold getEventsFromDisk
      rw [← h0, getEventsFromDay_over files M hlen]
    · have hds := ih h0
      unfold getEventsFromDisk
      cases h1 : getEventsFromDay d0 M with
      | error s0 => rw [getEventsFromDay_error_eq d0 M s0 h1]
      | ok es => rw [hds]

/-- C8: a disk read fails when some scanned day directory holds more
than 10000 entries; a missing day directory contributes an empty
result, not an error; and with at most 10000 entries the day read
succeeds and its result ignores malformed files (removing them changes
nothing), so they never fail the call. -/
theorem C8_store_read_errors (days : List DayDir) (files : List FileEntry) (M : Int) :
    (getEventsFromDay none M = .ok []) ∧
    (10000 < files.length →
      getEventsFromDay (some files) M =
        .error "too many files, please narrow time range") ∧
    (some files ∈ days → 10000 < files.length →
      getEventsFromDisk days M =
        .error "too many files, please narrow time range") ∧
    (files.length ≤ 10000 →
      getEventsFromDay (some files) M = .ok (collectDay M files) ∧
      getEventsFromDay (some (files.filter (fun f => f.content.isSome))) M =
        .ok (collectDay M files)) := by
  refine ⟨rfl, fun h => getEventsFromDay_over files M h,
    fun hmem hlen => getEventsFromDisk_error_of_mem days files M hmem hlen,
    fun hlen => ⟨?_, ?_⟩⟩
  · unfold getEventsFromDay
    dsimp only
    rw [if_neg (by omega)]
  · unfold getEventsFromDay
    dsimp only
    rw [if_neg (by have := List.length_filter_le (fun f => f.content.isSome) files; omega),
      collectDay_filter_isSome]

/-- Closed instance of `C8_store_read_errors`: a 10001-entry directory
fails the scan that contains it, and a two-entry directory with one
malformed file succeeds, the malformed file skipped. -/
theorem C8_store_read_errors_witness :
    (getEventsFromDisk
        [none, some (List.replicate 10001 ⟨"x.json", none⟩)] 5 =
      .error "too many files, please narrow time range") ∧
    (getEventsFromDay
        (some [⟨"good.json", some (mkEv "g" 5)⟩, ⟨"bad.json", none⟩]) 5 =
      .ok (collectDay 5 [⟨"good.json", some (mkEv "g" 5)⟩, ⟨"bad.json", none⟩]) ∧
      getEventsFromDay
          (some ([⟨"good.json", some (mkEv "g" 5)⟩,
            ⟨"bad.json", none⟩].filter (fun f => f.content.isSome))) 5 =
        .ok (collectDay 5 [⟨"good.json", some (mkEv "g" 5)⟩, ⟨"bad.json", none⟩])) :=
  ⟨(C8_store_read_errors [none, some (List.replicate 10001 ⟨"x.json", none⟩)]
        (List.replicate 10001 ⟨"x.json", none⟩) 5).2.2.1
      (List.mem_cons_of_mem _ (List.mem_cons_self _ _))
      (by rw [List.length_replicate]; norm_num),
    (C8_store_read_errors []
        [⟨"good.json", some (mkEv "g" 5)⟩, ⟨"bad.json", none⟩] 5).2.2.2
      (by simp)⟩

theorem enrichEvent_ts (g ip ua rf : String) (now : Int) (e : Event) (appID : String) :
    (enrichEvent g ip ua rf now e appID).ts =
      if e.ts = goZeroUnix then now
      else if MaxTimestampDriftSeconds < e.ts - now then now
      else if e.ts - now < -MaxTimestampDriftSeconds then now
      else e.ts := by
  simp only [enrichEvent]
  split_ifs <;> (try split) <;> (try split) <;> rfl

/-- C9: the enricher's timestamp clamp.  A zero timestamp becomes the
server's current UTC time; a non-zero timestamp whose drift from server
time exceeds `MaxTimestampDrift` (5 minutes) in either direction is
overwritten with server time; a drift of at most 5 minutes leaves the
timestamp unchanged. -/
theorem C9_timestamp_clamp (g ip ua rf : String) (now : Int) (e : Event)
    (appID : String) :
    (e.ts = goZeroUnix →
      (enrichEvent g ip ua rf now e appID).ts = now) ∧
    (e.ts ≠ goZeroUnix →
      (MaxTimestampDriftSeconds < e.ts - now ∨
          e.ts - now < -MaxTimestampDriftSeconds →
        (enrichEvent g ip ua rf now e appID).ts = now) ∧
      (-MaxTimestampDriftSeconds ≤ e.ts - now →
        e.ts - now ≤ MaxTimestampDriftSeconds →
        (enrichEvent g ip ua rf now e appID).ts = e.ts)) := by
  refine ⟨?_, ?_⟩
  · intro hz
    rw [enrichEvent_ts, if_pos hz]
  · intro hz
    refine ⟨?_, ?_⟩
    · intro hdrift
      rw [enrichEvent_ts, if_neg hz]
      rcases hdrift with h | h
      · rw [if_pos h]
      · rw [if_neg (by unfold MaxTimestampDriftSeconds at h ⊢; omega), if_pos h]
    · intro hlo hhi
      rw [enrichEvent_ts, if_neg hz, if_neg (by omega), if_neg (by omega)]

/-- Closed instance of `C9_timestamp_clamp`: a zero timestamp is set to
server time, a 301-second-late timestamp is overwritten, a
60-second-late timestamp is kept. -/
theorem C9_timestamp_clamp_witness :
    (enrichEvent "g" "ip" "ua" "rf" 1000000 { ts := goZeroUnix } "a").ts = 1000000 ∧
    (enrichEvent "g" "ip" "ua" "rf" 1000000 { ts := 999699 } "a").ts = 1000000 ∧
    (enrichEvent "g" "ip" "ua" "rf" 1000000 { ts := 999940 } "a").ts = 999940 :=
  ⟨(C9_timestamp_clamp "g" "ip" "ua" "rf" 1000000 { ts := goZeroUnix } "a").1 rfl,
    ((C9_timestamp_clamp "g" "ip" "ua" "rf" 1000000 { ts := 999699 } "a").2
        (by decide)).1 (Or.inr (by decide)),
    ((C9_timestamp_clamp "g" "ip" "ua" "rf" 1000000 { ts := 999940 } "a").2
        (by decide)).2 (by decide) (by decide)⟩

/-- C10: when the query request carries no `start-minutes-since-epoch`
parameter (`Get` returns the empty string), the parsed start minute
defaults to the current UTC time in minutes since epoch minus
`CacheWindowMinutes = 30`, covering the last 30 minutes; a present but
non-integer parameter is a parse error. -/
theorem C10_parse_request_default (nowMin : Int) (path : String)
    (startParam : String) (appID : String)
    (hpath : extractAppID path = .ok appID) :
    (parseRequest nowMin path "" = .ok (appID, nowMin - 30)) ∧
    (startParam ≠ "" → goParseInt startParam = none →
      parseRequest nowMin path startParam =
        .error "invalid start-minutes-since-epoch format") := by
  constructor
  · unfold parseRequest
    rw [hpath]
    rfl
  · intro hne hparse
    unfold parseRequest
    rw [hpath]
    dsimp only
    rw [if_neg hne, hparse]

/-- Closed instance of `C10_parse_request_default` on the request path
of the query endpoint, with no parameter and with parameter
`"invalid"`. -/
theorem C10_parse_request_default_witness :
    (parseRequest 1000030 "/analytics/api/v1/apps/test123/events" "" =
      .ok ("test123", 1000000)) ∧
    (parseRequest 1000030 "/analytics/api/v1/apps/test123/events" "invalid" =
      .error "invalid start-minutes-since-epoch format") :=
  ⟨(C10_parse_request_default 1000030 "/analytics/api/v1/apps/test123/events"
        "invalid" "test123" rfl).1,
    (C10_parse_request_default 1000030 "/analytics/api/v1/apps/test123/events"
        "invalid" "test123" rfl).2 (by decide) rfl⟩

theorem assocFind_assocSet_self {α : Type} (l : List (String × α)) (k : String) (v : α) :
    assocFind (assocSet l k v) k = some v := by
  induction l with
  | nil => simp [assocSet, assocFind, List.find?]
  | cons p t ih =>
    obtain ⟨k0, v0⟩ := p
    by_cases hk : k0 = k
    · simp [assocSet, assocFind, List.find?, hk]
    · simpa [assocSet, assocFind, List.find?, hk] using ih

theorem addEventMgr_find (caches : List (String × EventCache)) (nowMin : Int)
    (e : Event) (c : EventCache) (hc : assocFind caches e.appID = some c) :
    assocFind (addEventMgr caches nowMin e) e.appID = some (addEvent c e) := by
  unfold addEventMgr
  rw [hc]
  exact assocFind_assocSet_self caches e.appID (addEvent c e)

theorem addEvent_mem (c : EventCache) (e : Event) (hwf : CacheWF c)
    (hlo : c.lastMinute - (CacheWindowMinutes : Int) ≤ minuteFloor e.ts)
    (hhi : minuteFloor e.ts ≤ c.lastMinute) :
    e ∈ bucketAt (addEvent c e)
      ((c.lastMinute - minuteFloor e.ts).toNat % CacheWindowMinutes) := by
  unfold addEvent
  rw [if_neg (by omega), if_neg (by omega)]
  simp only [bucketAt]
  have hidx : (c.currentIndex + CacheWindowMinutes -
      (c.lastMinute - minuteFloor e.ts).toNat % CacheWindowMinutes) % CacheWindowMinutes =
      (c.currentIndex + CacheWindowMinutes -
        (c.lastMinute - minuteFloor e.ts).toNat) % CacheWindowMinutes := by
    unfold CacheWindowMinutes at *
    omega
  rw [hidx, List.getD_eq_getElem?_getD,
    List.getElem?_set_eq_of_lt _
      (by rw [hwf.1]; exact Nat.mod_lt _ (by unfold CacheWindowMinutes; omega)),
    Option.getD_some]
  simp

/-- C1 (amended): on a persist failure the ingestion endpoint does
respond 500, but the event has already been admitted to the cache —
`PostHandler` calls `AddEvent` before `saveEvent`, so the cache map
after a failed request equals the map with the enriched event admitted,
identical to the map after a successful request, and for an app with an
existing in-window cache the enriched event sits in its bucket. -/
theorem C1_cache_before_store (g ip ua rf : String) (serverNow : Int)
    (caches : List (String × EventCache)) (e : Event) (appID : String)
    (ev : Event) (hev : ev = enrichEvent g ip ua rf serverNow e appID) :
    (postTrack g ip ua rf serverNow caches e appID false).1 = 500 ∧
    (postTrack g ip ua rf serverNow caches e appID false).2.2 =
      addEventMgr caches (minuteFloor serverNow) ev ∧
    (postTrack g ip ua rf serverNow caches e appID false).2.2 =
      (postTrack g ip ua rf serverNow caches e appID true).2.2 ∧
    (∀ c, assocFind caches ev.appID = some c → CacheWF c →
      c.lastMinute - (CacheWindowMinutes : Int) ≤ minuteFloor ev.ts →
      minuteFloor ev.ts ≤ c.lastMinute →
      assocFind ((postTrack g ip ua rf serverNow caches e appID false).2.2) ev.appID =
        some (addEvent c ev) ∧
      ev ∈ bucketAt (addEvent c ev)
        ((c.lastMinute - minuteFloor ev.ts).toNat % CacheWindowMinutes)) := by
  subst hev
  refine ⟨rfl, rfl, rfl, ?_⟩
  intro c hc hwf hlo hhi
  exact ⟨addEventMgr_find caches (minuteFloor serverNow) _ c hc,
    addEvent_mem c _ hwf hlo hhi⟩

/-- Closed instance of `C1_cache_before_store`: server minute 999999,
a cache with `lastMinute` minute 1000000, and an event at minute 999995
whose durable write fails; the response is 500 and the event is in the
bucket at offset 5. -/
theorem C1_cache_before_store_witness :
    (postTrack "g" "ip" "ua" "rf" 59999940 [("a", newEventCache 999999)]
        (mkEv "e0" 999995) "a" false).1 = 500 ∧
    (assocFind
        ((postTrack "g" "ip" "ua" "rf" 59999940 [("a", newEventCache 999999)]
            (mkEv "e0" 999995) "a" false).2.2)
        (enrichEvent "g" "ip" "ua" "rf" 59999940 (mkEv "e0" 999995) "a").appID =
      some (addEvent (newEventCache 999999)
        (enrichEvent "g" "ip" "ua" "rf" 59999940 (mkEv "e0" 999995) "a")) ∧
      enrichEvent "g" "ip" "ua" "rf" 59999940 (mkEv "e0" 999995) "a" ∈
        bucketAt
          (addEvent (newEventCache 999999)
            (enrichEvent "g" "ip" "ua" "rf" 59999940 (mkEv "e0" 999995) "a"))
          (((newEventCache 999999).lastMinute -
              minuteFloor (enrichEvent "g" "ip" "ua" "rf" 59999940
                (mkEv "e0" 999995) "a").ts).toNat % CacheWindowMinutes)) :=
  ⟨(C1_cache_before_store "g" "ip" "ua" "rf" 59999940 [("a", newEventCache 999999)]
      (mkEv "e0" 999995) "a" _ rfl).1,
    (C1_cache_before_store "g" "ip" "ua" "rf" 59999940 [("a", newEventCache 999999)]
        (mkEv "e0" 999995) "a" _ rfl).2.2.2 (newEventCache 999999)
      (by decide) (by decide) (by decide) (by decide)⟩

/-- C1 counterexample: with a failing durable write, the handler
answers 500 yet the event sits in the per-app cache — the claim's
"responds 5xx and the event is not admitted to any cache bucket"
(store-before-cache) is false of the code, which calls `AddEvent`
before `saveEvent`. -/
theorem C1_counterexample :
    (postTrack "g" "ip" "ua" "rf" 59999940 [("a", newEventCache 999999)]
        (mkEv "e0" 999995) "a" false).1 = 500 ∧
    assocFind
        ((postTrack "g" "ip" "ua" "rf" 59999940 [("a", newEventCache 999999)]
            (mkEv "e0" 999995) "a" false).2.2) "a" =
      some (addEvent (newEventCache 999999)
        (enrichEvent "g" "ip" "ua" "rf" 59999940 (mkEv "e0" 999995) "a")) ∧
    enrichEvent "g" "ip" "ua" "rf" 59999940 (mkEv "e0" 999995) "a" ∈
      bucketAt (addEvent (newEventCache 999999)
        (enrichEvent "g" "ip" "ua" "rf" 59999940 (mkEv "e0" 999995) "a")) 5 := by
  refine ⟨by decide, by decide, by decide⟩

/-- C6 (amended): startup performs no cache warm-up.  Whatever the
store holds, a successful startup yields an empty cache map — per-app
caches are created only by the first `AddEvent` — and startup is
exactly `NewManager` (main.go performs no store scan). -/
theorem C6_no_warmup (load : LoadResult) (saveOk : Bool)
    (store : List (String × List DayDir)) (st : ManagerState)
    (h : mainStartup load saveOk store = .ok st) :
    st.caches = [] ∧ mainStartup load saveOk store = newManager load saveOk := by
  refine ⟨?_, rfl⟩
  unfold mainStartup newManager at h
  cases load with
  | loaded d =>
    simp only [Except.ok.injEq] at h
    rw [← h]
  | notExist =>
    cases saveOk with
    | false => simp at h
    | true =>
      simp only [if_true, Except.ok.injEq] at h
      rw [← h]
  | loadFailed => simp at h

/-- Closed instance of `C6_no_warmup` at a registry that loads
successfully. -/
theorem C6_no_warmup_witness :
    ({ data := { apps := [] }, caches := [] } : ManagerState).caches = [] ∧
    mainStartup (.loaded { apps := [] }) true [] =
      newManager (.loaded { apps := [] }) true :=
  C6_no_warmup (.loaded { apps := [] }) true []
    { data := { apps := [] }, caches := [] } rfl

/-- C6 counterexample: the registry loads with one app and the store
holds an event from the last 35 minutes (minute 999998, now = minute
999999), yet startup returns an empty cache map: no warm-up scan ever
runs, so the claimed startup `Add` of recent events is false of the
code. -/
theorem C6_counterexample :
    mainStartup (.loaded ⟨[("a", ⟨"a", "n", "k", 0, []⟩)]⟩) true
        [("a", [some [⟨"e.json", some (mkEv "w" 999998)⟩]])] =
      .ok ⟨⟨[("a", ⟨"a", "n", "k", 0, []⟩)]⟩, []⟩ := rfl

theorem assocRemove_assocSet_self {α : Type} (l : List (String × α)) (k : String) (v : α)
    (h : assocFind l k = none) : assocRemove (assocSet l k v) k = l := by
  induction l with
  | nil => simp [assocSet, assocRemove]
  | cons p t ih =>
    obtain ⟨k0, v0⟩ := p
    by_cases hk : k0 = k
    · exfalso
      simp [assocFind, List.find?, hk] at h
    · have hkf : (k0 == k) = false := beq_eq_false_iff_ne.mpr hk
      have ht : assocFind t k = none := by
        unfold assocFind List.find? at h
        rw [hkf] at h
        exact h
      simpa [assocSet, assocRemove, List.filter_cons, hk, hkf] using ih ht

/-- C7 (amended): registry mutations persist the whole document, but
only `CreateApp` rolls back on a save failure (deleting the inserted
entry restores the previous registry); `UpdateAppHandler` and
`DeleteAppHandler` have no rollback — a failed save answers 500 with
the mutation (the overwritten name/origins, or the removal of both the
registry entry and the per-app cache) still in memory. -/
theorem C7_mutation_rollback (d : RegistryData) (caches : List (String × EventCache))
    (name id apiKey appID : String) (origins : List String) (createdAt : Int)
    (app : App) :
    (assocFind d.apps id = none →
      (createApp d name id (some apiKey) createdAt false).2 = d) ∧
    (name ≠ "" → assocFind d.apps appID = some app →
      updateApp d appID name origins false =
        (500, (⟨assocSet d.apps appID
          { app with name := name, allowedOrigins := origins }⟩ : RegistryData))) ∧
    (assocFind d.apps appID = some app →
      deleteApp d caches appID false =
        (500, { apps := assocRemove d.apps appID }, assocRemove caches appID)) := by
  refine ⟨?_, ?_, ?_⟩
  · intro hnone
    unfold createApp
    rw [if_neg (by rw [hnone]; simp)]
    dsimp only
    rw [assocRemove_assocSet_self d.apps id _ hnone]
    rfl
  · intro hname hfind
    unfold updateApp
    rw [if_neg hname, hfind]
    rfl
  · intro hfind
    unfold deleteApp
    rw [hfind]
    rfl

/-- Closed instance of `C7_mutation_rollback` on a one-app registry:
the create rollback restores the registry, the failed update keeps the
new name, the failed delete keeps the removal. -/
theorem C7_mutation_rollback_witness :
    ((createApp ⟨[("a1", ⟨"a1", "old", "k", 0, []⟩)]⟩ "n2" "b2" (some "k2") 7 false).2 =
      ⟨[("a1", ⟨"a1", "old", "k", 0, []⟩)]⟩) ∧
    (updateApp ⟨[("a1", ⟨"a1", "old", "k", 0, []⟩)]⟩ "a1" "newname" [] false =
      (500, ⟨assocSet [("a1", ⟨"a1", "old", "k", 0, []⟩)] "a1"
        ⟨"a1", "newname", "k", 0, []⟩⟩)) ∧
    (deleteApp ⟨[("a1", ⟨"a1", "old", "k", 0, []⟩)]⟩ [("a1", newEventCache 999999)]
        "a1" false =
      (500, ⟨assocRemove [("a1", ⟨"a1", "old", "k", 0, []⟩)] "a1"⟩,
        assocRemove [("a1", newEventCache 999999)] "a1")) :=
  ⟨(C7_mutation_rollback ⟨[("a1", ⟨"a1", "old", "k", 0, []⟩)]⟩ [] "n2" "b2" "k2" ""
      [] 7 ⟨"a1", "old", "k", 0, []⟩).1 rfl,
    (C7_mutation_rollback ⟨[("a1", ⟨"a1", "old", "k", 0, []⟩)]⟩ [] "newname" "" "" "a1"
        [] 0 ⟨"a1", "old", "k", 0, []⟩).2.1 (by decide) rfl,
    (C7_mutation_rollback ⟨[("a1", ⟨"a1", "old", "k", 0, []⟩)]⟩
        [("a1", newEventCache 999999)] "" "" "" "a1" [] 0
        ⟨"a1", "old", "k", 0, []⟩).2.2 rfl⟩

/-- C7 counterexample: a failed save inside the update handler answers
500 but the in-memory registry keeps the new name — it does not equal
the registry before the mutation, so the claimed all-mutation rollback
is false (only create rolls back). -/
theorem C7_counterexample :
    (updateApp ⟨[("a1", ⟨"a1", "old", "k", 0, []⟩)]⟩ "a1" "newname" [] false).1 = 500 ∧
    (updateApp ⟨[("a1", ⟨"a1", "old", "k", 0, []⟩)]⟩ "a1" "newname" [] false).2 ≠
      ⟨[("a1", ⟨"a1", "old", "k", 0, []⟩)]⟩ ∧
    assocFind (updateApp ⟨[("a1", ⟨"a1", "old", "k", 0, []⟩)]⟩
        "a1" "newname" [] false).2.apps "a1" =
      some ⟨"a1", "newname", "k", 0, []⟩ := by
  refine ⟨by decide, by decide, by decide⟩

end Redsprint
